import Mathlib

/-!
Shallow embedding of `src/pytorch/containers/custom_container/task.py`
(a PyTorch train/eval harness for a binary sonar classifier).

Numeric tensor values are modelled as rationals (`ℚ`); a 1-d tensor is a
`List ℚ` and a 2-d feature tensor a `List (List ℚ)`.  The external
collaborators (the network forward pass `net(features)`, the loss
criterion `nn.BCELoss()`, the SGD optimizer step, `data_utils.load_data`)
are abstracted as function parameters, exactly as the spec declares them
external black boxes; the control flow, accumulators, thresholding,
normalization and persistence logic of `task.py` are embedded line by
line.
-/

namespace SonarTask

/-- A batch as produced by the data loader: `data['features']` is a
`[batch_size, feature_dim]` matrix, `data['target']` a vector of
`{0.0, 1.0}` targets (one per example). -/
structure Batch where
  features : List (List ℚ)
  target : List ℚ
deriving Repr, DecidableEq, Inhabited

/-- Modelled from the spec: the Dataset Provider (`data_utils.load_data`,
not under `src/`) yields a finite sequence of batches over an underlying
dataset.  `datasetSize` models `len(loader.dataset)` and `batchSize`
models `loader.batch_size`. -/
structure Loader where
  batches : List Batch
  datasetSize : ℕ
  batchSize : ℕ
deriving Repr, DecidableEq, Inhabited

/-- Number of examples carried by a batch (the length of its target
vector). -/
def batchCount (b : Batch) : ℕ := b.target.length

/-- Modelled from the spec: well-formedness of a loader over its
underlying dataset — positive batch size, the dataset size is the total
number of examples across batches, every batch except the last is
full-sized, and the last batch (when present) is non-empty and at most
full-sized. -/
def Loader.WellFormed (l : Loader) : Prop :=
  0 < l.batchSize ∧
  l.datasetSize = (l.batches.map batchCount).sum ∧
  (∀ b ∈ l.batches.dropLast, batchCount b = l.batchSize) ∧
  (∀ b ∈ l.batches.getLast?, 0 < batchCount b ∧ batchCount b ≤ l.batchSize)

/-- The model: its mutable parameter tensors (flattened) plus the
train/eval mode flag toggled by `net.train()` / `net.eval()`. -/
structure Net where
  params : List ℚ
  training : Bool
deriving Repr, DecidableEq, Inhabited

/-- The abstract forward pass `net(features)`: given the parameter state,
the mode flag and a feature matrix, produce one output per example.
The architecture (`model.SonarDNN`) is an external collaborator. -/
def Forward : Type := List ℚ → Bool → List (List ℚ) → List ℚ

/-- The abstract loss criterion `nn.BCELoss()`: outputs and targets to a
scalar loss (an external collaborator of the numerical library). -/
def Criterion : Type := List ℚ → List ℚ → ℚ

/-- The abstract optimizer update `loss.backward(); optimizer.step()`:
new parameters from current parameters and the current batch (gradient
computation is delegated to the external library). -/
def OptStep : Type := List ℚ → Batch → List ℚ

/-- `set_value_` from task.py: threshold a prediction into a binary
target value (`item < 0.5` gives `0.0`, else `1.0`). -/
def set_value_ (item : ℚ) : ℚ :=
  if item < 1/2 then 0 else 1

/-- `pred.eq(target.view_as(pred)).sum().item()`: the number of positions
where the binarized prediction equals the target. -/
def countEq (pred target : List ℚ) : ℕ :=
  (pred.zip target).countP (fun p => decide (p.1 = p.2))

/-- Loss denominator of the evaluation loop: `len(test_loader.dataset)`
(line 77 of task.py). -/
def lossDenom (l : Loader) : ℕ := l.datasetSize

/-- Accuracy denominator of the evaluation loop:
`len(test_loader) * test_loader.batch_size` (lines 81 to 82 of task.py). -/
def accDenom (l : Loader) : ℕ := l.batches.length * l.batchSize

/-- One pass of the `for i, data in enumerate(test_loader, 0)` loop of
`test`.  Returns, in order: the trace of tensors passed to
`criterion` as first argument (one per batch), the accumulated
`test_loss`, and the accumulated `correct` count.

Note `pred = output.apply_(set_value_)`: `Tensor.apply_` mutates the
tensor in place and returns it, so after that line `output` itself holds
the binarized values and `pred` is an alias of it; the subsequent
`criterion(output, target)` therefore receives the binarized tensor.
The embedding models the mutation by rebinding `output`. -/
def testLoop (crit : Criterion) (fwd : Forward) (params : List ℚ) :
    List Batch → List (List ℚ) × ℚ × ℕ
  | [] => ([], 0, 0)
  | b :: bs =>
    let output := fwd params false b.features
    let output := output.map set_value_
    let pred := output
    let rest := testLoop crit fwd params bs
    (output :: rest.1, crit output b.target + rest.2.1,
      countEq pred b.target + rest.2.2)

/-- The metrics reported by `test`: the normalized average loss, the
correct count, the printed accuracy denominator, and the printed accuracy
percentage. -/
structure TestMetrics where
  avgLoss : ℚ
  correct : ℕ
  accTotal : ℕ
  accuracyPct : ℚ
deriving Repr, DecidableEq, Inhabited

/-- `test(net, test_loader)` from task.py: switch the net to eval mode,
run the batch loop under `torch.no_grad()`, then normalize.  In Python
the two final divisions raise `ZeroDivisionError` when their denominator
is zero (the empty-loader case leaves `test_loss` as the integer 0, and
`0 /= 0` raises), so the normalization is fallible: `none` models the
pass dying before reporting metrics. -/
def test (crit : Criterion) (fwd : Forward) (net : Net) (loader : Loader) :
    Net × Option TestMetrics :=
  let net := { net with training := false }
  let res := testLoop crit fwd net.params loader.batches
  if lossDenom loader = 0 then (net, none)
  else if accDenom loader = 0 then (net, none)
  else
    (net, some
      { avgLoss := res.2.1 / (lossDenom loader : ℚ)
        correct := res.2.2
        accTotal := accDenom loader
        accuracyPct := 100 * (res.2.2 : ℚ) / (accDenom loader : ℚ) })

/-- The tensors on which the per-batch evaluation loss is computed (the
first argument handed to `criterion` on line 73 of task.py), in batch
order. -/
def testLossInputs (crit : Criterion) (fwd : Forward) (net : Net)
    (loader : Loader) : List (List ℚ) :=
  (testLoop crit fwd ({ net with training := false }).params loader.batches).1

/-- The raw forward-pass outputs `output = net(features)` of the
evaluation loop (line 69 of task.py), before any thresholding, in batch
order. -/
def rawOutputs (fwd : Forward) (net : Net) (loader : Loader) :
    List (List ℚ) :=
  loader.batches.map (fun b => fwd net.params false b.features)

/-- A progress report printed by the training loop:
`print('[%d, %5d] loss: %.3f' % (epoch, batch_index + 1, running_loss / 6))`. -/
structure Report where
  epoch : ℕ
  batchNumber : ℕ
  meanLoss : ℚ
deriving Repr, DecidableEq, Inhabited

/-- Observable record of one training batch: the zero-based batch index,
the batch loss `loss.item()`, the report printed on this batch (if any),
and the value of `running_loss` at the end of the batch body. -/
structure TraceEntry where
  index : ℕ
  loss : ℚ
  report : Option Report
  runningAfter : ℚ
deriving Repr, DecidableEq, Inhabited

/-- The `for batch_index, data in enumerate(train_loader)` loop of
`train`: per batch, zero the gradients, forward, loss, backward and
optimizer step (abstracted into `optStep`), accumulate `running_loss`,
and on every index with `batch_index % 6 == 5` print a report and reset
the accumulator.  Arguments after the batch list: current parameters are
threaded first, then the running batch index and `running_loss`.
Returns the final parameters and the per-batch trace. -/
def trainAux (crit : Criterion) (fwd : Forward) (optStep : OptStep)
    (epoch : ℕ) : List ℚ → List Batch → ℕ → ℚ → List ℚ × List TraceEntry
  | params, [], _, _ => (params, [])
  | params, b :: bs, i, r =>
    let outputs := fwd params true b.features
    let loss := crit outputs b.target
    let params := optStep params b
    let r := r + loss
    if i % 6 = 5 then
      let rest := trainAux crit fwd optStep epoch params bs (i + 1) 0
      (rest.1,
        { index := i, loss := loss,
          report := some { epoch := epoch, batchNumber := i + 1, meanLoss := r / 6 },
          runningAfter := 0 } :: rest.2)
    else
      let rest := trainAux crit fwd optStep epoch params bs (i + 1) r
      (rest.1,
        { index := i, loss := loss, report := none, runningAfter := r } :: rest.2)

/-- `train(net, train_loader, optimizer, epoch)` from task.py: switch the
net to train mode (`net.train()`), start `running_loss = 0.0`, run the
batch loop from index 0, and write the final parameters back into the
net.  Returns the updated net and the batch trace. -/
def train (crit : Criterion) (fwd : Forward) (optStep : OptStep)
    (net : Net) (loader : Loader) (epoch : ℕ) : Net × List TraceEntry :=
  let net := { net with training := true }
  let res := trainAux crit fwd optStep epoch net.params loader.batches 0 0
  ({ net with params := res.1 }, res.2)

/-- The CLI configuration assembled by `main()` (argparse defaults:
`model_dir` absent, `model_name = "sonar_model"`, `batch_size = 4`,
`test_split = 0.2`, `epochs = 10`, `lr = 0.01`, `momentum = 0.5`,
`seed = 42`). -/
structure Config where
  modelDir : Option String
  modelName : String
  batchSize : ℕ
  testSplit : ℚ
  epochs : ℕ
  lr : ℚ
  momentum : ℚ
  seed : ℤ
deriving Repr, DecidableEq, Inhabited

/-- Externally observable actions of `task(args)`, in program order. -/
inductive Event where
  | manualSeed (seed : ℤ)
  | loadData (testSplit : ℚ) (batchSize : ℕ)
  | trainPass (epoch : ℕ)
  | testPass (epoch : ℕ)
  | saveLocal (name : String)
  | uploadModel (dir : String) (name : String)
deriving Repr, DecidableEq

/-- The `for epoch in range(1, args.epochs + 1)` loop of `task`: for each
epoch in the given list, run `train` then `test`, threading the net
through both, and record a `trainPass` and a `testPass` event. -/
def epochLoop (crit : Criterion) (fwd : Forward) (optStep : OptStep)
    (trainLoader testLoader : Loader) : Net → List ℕ → Net × List Event
  | net, [] => (net, [])
  | net, e :: es =>
    let r1 := train crit fwd optStep net trainLoader e
    let r2 := test crit fwd r1.1 testLoader
    let rest := epochLoop crit fwd optStep trainLoader testLoader r2.1 es
    (rest.1, Event.trainPass e :: Event.testPass e :: rest.2)

/-- The persistence tail of `task`: `if args.model_name:` write the
serialized model locally (`torch.save`), and inside that, `if
args.model_dir:` upload it (`data_utils.save_model`).  Python string
truthiness: `None` and the empty string are falsy. -/
def saveEvents (cfg : Config) : List Event :=
  if cfg.modelName = "" then []
  else
    Event.saveLocal cfg.modelName ::
      (match cfg.modelDir with
       | none => []
       | some d => if d = "" then [] else [Event.uploadModel d cfg.modelName])

/-- `task(args)` from task.py: seed the RNG (`torch.manual_seed`), load
the train/test split (`data_utils.load_data(test_split, batch_size)`),
build the net and the SGD optimizer (`optim.SGD(..., lr, momentum,
nesterov=False)`), run the interleaved train/test epochs, then persist.
`sgd` abstracts the optimizer construction from learning rate and
momentum; `loadData` abstracts the Dataset Provider; `mkNet` abstracts
`model.SonarDNN().double()`.  Returns the final net and the event
trace. -/
def task (crit : Criterion) (fwd : Forward) (sgd : ℚ → ℚ → OptStep)
    (loadData : ℚ → ℕ → Loader × Loader) (mkNet : Net) (cfg : Config) :
    Net × List Event :=
  let loaders := loadData cfg.testSplit cfg.batchSize
  let optStep := sgd cfg.lr cfg.momentum
  let run := epochLoop crit fwd optStep loaders.1 loaders.2 mkNet
    (List.range' 1 cfg.epochs)
  (run.1,
    Event.manualSeed cfg.seed :: Event.loadData cfg.testSplit cfg.batchSize ::
      (run.2 ++ saveEvents cfg))

/-! ### Concrete collaborators used by examples and witnesses -/

/-- A trivial criterion (the loss value is irrelevant to trace claims). -/
def critZero : Criterion := fun _ _ => 0

/-- A criterion returning a constant loss of 1 per batch. -/
def critOne : Criterion := fun _ _ => 1

/-- A forward pass producing the constant probability 0.7 per example. -/
def fwdConst : Forward := fun _ _ features => features.map (fun _ => 7/10)

/-- An optimizer step that leaves the parameters unchanged. -/
def stepId : OptStep := fun p _ => p

/-- A one-example demo batch with target 1.0. -/
def batchDemo : Batch := { features := [[1]], target := [1] }

/-- A single-batch demo loader (one example, batch size 1). -/
def loaderDemo : Loader :=
  { batches := [batchDemo], datasetSize := 1, batchSize := 1 }

/-- A demo net. -/
def netDemo : Net := { params := [0], training := true }

/-! ### Helper lemmas -/

instance (l : Loader) : Decidable l.WellFormed := by
  unfold Loader.WellFormed
  infer_instance

/-- The trace of tensors handed to the criterion by the evaluation loop
is the batchwise binarized forward output. -/
lemma testLoop_fst (crit : Criterion) (fwd : Forward) (params : List ℚ) :
    ∀ bs : List Batch,
      (testLoop crit fwd params bs).1 =
        bs.map (fun b => (fwd params false b.features).map set_value_) := by
  intro bs
  induction bs with
  | nil => simp [testLoop]
  | cons b bs ih => simp [testLoop, ih]

/-- The net returned by the evaluation loop is the input net switched to
eval mode. -/
lemma test_fst (crit : Criterion) (fwd : Forward) (net : Net)
    (loader : Loader) :
    (test crit fwd net loader).1 = { net with training := false } := by
  unfold test
  split
  · rfl
  · split
    · rfl
    · rfl

/-! ### Claim theorems -/

/-- C1: the claim states the per-batch evaluation loss is computed on the
raw (unbinarized) forward output.  In the code it is not:
`Tensor.apply_` binarizes `output` in place before
`criterion(output, target)` runs, so the loss is computed on the
thresholded predictions.  First conjunct: for every model and loader the
tensors handed to the criterion are the binarized outputs; remaining
conjuncts evaluate a concrete run whose raw output 0.7 reaches the
criterion as 1.0. -/
theorem c1_loss_computed_on_binarized_output :
    (∀ (crit : Criterion) (fwd : Forward) (net : Net) (loader : Loader),
        testLossInputs crit fwd net loader =
          (rawOutputs fwd net loader).map (fun t => t.map set_value_)) ∧
      testLossInputs critZero fwdConst netDemo loaderDemo = [[1]] ∧
      rawOutputs fwdConst netDemo loaderDemo = [[7/10]] ∧
      ¬ testLossInputs critZero fwdConst netDemo loaderDemo =
          rawOutputs fwdConst netDemo loaderDemo := by
  have hgen : ∀ (crit : Criterion) (fwd : Forward) (net : Net) (loader : Loader),
      testLossInputs crit fwd net loader =
        (rawOutputs fwd net loader).map (fun t => t.map set_value_) := by
    intro crit fwd net loader
    simp [testLossInputs, rawOutputs, testLoop_fst, List.map_map]
  have hloss : testLossInputs critZero fwdConst netDemo loaderDemo = [[1]] := by
    have hsv : set_value_ ((7:ℚ)/10) = 1 := by
      unfold set_value_
      rw [if_neg (by norm_num)]
    simp [testLossInputs, testLoop, fwdConst, netDemo, loaderDemo, batchDemo, hsv]
  have hraw : rawOutputs fwdConst netDemo loaderDemo = [[7/10]] := by
    simp [rawOutputs, fwdConst, netDemo, loaderDemo, batchDemo]
  refine ⟨hgen, hloss, hraw, ?_⟩
  rw [hloss, hraw]
  intro h
  injection h with h1 h2
  injection h1 with h3 h4
  norm_num at h3

/-- C3: on the interval `[0, 1)` the binarization function returns 0.0
below the 0.5 threshold and 1.0 from the threshold up; the boundary
input 0.5 itself maps to 1.0. -/
theorem c3_binarize_unit_interval (o : ℚ) (h0 : 0 ≤ o) (h1 : o < 1) :
    ((o < 1/2 → set_value_ o = 0) ∧ (1/2 ≤ o → set_value_ o = 1)) ∧
      set_value_ (1/2) = 1 := by
  refine ⟨⟨fun h => ?_, fun h => ?_⟩, ?_⟩
  · unfold set_value_
    rw [if_pos h]
  · unfold set_value_
    rw [if_neg (not_lt.mpr h)]
  · unfold set_value_
    rw [if_neg (by norm_num)]

/-- Witness for C3 at the concrete input 3/4. -/
theorem c3_witness :
    (((3:ℚ)/4 < 1/2 → set_value_ (3/4) = 0) ∧
        ((1:ℚ)/2 ≤ 3/4 → set_value_ (3/4) = 1)) ∧
      set_value_ (1/2) = 1 :=
  c3_binarize_unit_interval (3/4) (by norm_num) (by norm_num)

/-- C9: the binarization function is total over all rational inputs:
below 0.5 it returns exactly 0.0, from 0.5 up exactly 1.0; hence every
input at least 1 maps to 1.0, every negative input to 0.0, and the
result is always 0.0 or 1.0. -/
theorem c9_binarize_total (item : ℚ) :
    (item < 1/2 → set_value_ item = 0) ∧
      (1/2 ≤ item → set_value_ item = 1) ∧
      (1 ≤ item → set_value_ item = 1) ∧
      (item < 0 → set_value_ item = 0) ∧
      (set_value_ item = 0 ∨ set_value_ item = 1) := by
  refine ⟨fun h => by unfold set_value_; rw [if_pos h],
    fun h => by unfold set_value_; rw [if_neg (not_lt.mpr h)],
    fun h => by
      unfold set_value_
      rw [if_neg (not_lt.mpr (by linarith : (1:ℚ)/2 ≤ item))],
    fun h => by
      unfold set_value_
      rw [if_pos (by linarith : item < 1/2)], ?_⟩
  by_cases h : item < 1/2
  · exact Or.inl (by unfold set_value_; rw [if_pos h])
  · exact Or.inr (by unfold set_value_; rw [if_neg h])

/-- Witness for C9 at the concrete inputs 8 and -3. -/
theorem c9_witness :
    set_value_ 8 = 1 ∧ set_value_ (-3) = 0 ∧
      (set_value_ 8 = 0 ∨ set_value_ 8 = 1) :=
  ⟨(c9_binarize_total 8).2.2.1 (by norm_num),
    (c9_binarize_total (-3)).2.2.2.1 (by norm_num),
    (c9_binarize_total 8).2.2.2.2⟩

/-- C4: the evaluation pass never changes the model parameters: for
every model and every evaluation loader, the parameter tensors of the
net returned by `test` equal those of the input net (only the mode flag
is switched by `net.eval()`; no optimizer step runs under
`torch.no_grad()`). -/
theorem c4_eval_preserves_params (crit : Criterion) (fwd : Forward)
    (net : Net) (loader : Loader) :
    (test crit fwd net loader).1.params = net.params := by
  rw [test_fst]

/-- C8: evaluating twice in a row with no training in between is
deterministic and side-effect free: running `test` on the net returned
by a first `test` run, over the same loader, returns the very same
net-and-metrics pair. -/
theorem c8_eval_deterministic (crit : Criterion) (fwd : Forward)
    (net : Net) (loader : Loader) :
    test crit fwd (test crit fwd net loader).1 loader =
      test crit fwd net loader := by
  rw [test_fst]
  rfl

/-- Specification predicate for the training-loop trace, chained from a
start index and an incoming accumulator value: every entry carries its
zero-based batch index; on an index with `i % 6 = 5` the entry reports
`(epoch, i + 1, accumulator / 6)` (the accumulator being the incoming
running loss plus this batch's loss) and leaves the accumulator reset to
0; on any other index no report is emitted and the accumulator carries
the added batch loss forward. -/
def TraceOk (ep : ℕ) : ℕ → ℚ → List TraceEntry → Prop
  | _, _, [] => True
  | i, r, e :: t =>
    e.index = i ∧
      (if i % 6 = 5 then
        e.report =
            some { epoch := ep, batchNumber := i + 1, meanLoss := (r + e.loss) / 6 } ∧
          e.runningAfter = 0
      else e.report = none ∧ e.runningAfter = r + e.loss) ∧
      TraceOk ep (i + 1) e.runningAfter t

/-- The trace produced by the training batch loop satisfies the
running-loss reporting discipline from any start index and incoming
accumulator. -/
lemma trainAux_traceOk (crit : Criterion) (fwd : Forward)
    (optStep : OptStep) (ep : ℕ) :
    ∀ (bs : List Batch) (params : List ℚ) (i : ℕ) (r : ℚ),
      TraceOk ep i r (trainAux crit fwd optStep ep params bs i r).2 := by
  intro bs
  induction bs with
  | nil =>
    intro params i r
    simp [trainAux, TraceOk]
  | cons b bs ih =>
    intro params i r
    by_cases h : i % 6 = 5
    · simpa [trainAux, TraceOk, h] using ih _ (i + 1) 0
    · simpa [trainAux, TraceOk, h] using ih _ (i + 1) _

/-- C5: the training loop accumulates per-batch losses into the running
loss; every batch with zero-based index congruent to 5 mod 6 emits a
report carrying the epoch, the printed batch number `index + 1` and the
accumulator divided by 6, and resets the accumulator to 0 immediately
afterwards; every other batch emits no report and carries the
accumulator forward.  Stated via `TraceOk` over the trace of a `train`
pass started (as in the code) at index 0 with `running_loss = 0.0`. -/
theorem c5_running_loss_reports (crit : Criterion) (fwd : Forward)
    (optStep : OptStep) (net : Net) (loader : Loader) (epoch : ℕ) :
    TraceOk epoch 0 0 (train crit fwd optStep net loader epoch).2 := by
  simpa [train] using
    trainAux_traceOk crit fwd optStep epoch loader.batches net.params 0 0

/-! ### Denominators of the evaluation metrics -/

/-- Under a well-formed loader whose last batch is not full-sized, the
accuracy denominator `len(test_loader) * batch_size` strictly exceeds
the loss denominator `len(test_loader.dataset)`. -/
lemma lossDenom_lt_accDenom (l : Loader) (hwf : l.WellFormed)
    (hlast : ∃ b ∈ l.batches.getLast?, batchCount b < l.batchSize) :
    lossDenom l < accDenom l := by
  obtain ⟨hB, hN, hfull, hlastwf⟩ := hwf
  obtain ⟨b, hb, hlt⟩ := hlast
  have hne : l.batches ≠ [] := by
    intro h
    rw [h] at hb
    simp at hb
  have hlastEq : l.batches.getLast hne = b := by
    have := List.getLast?_eq_getLast l.batches hne
    rw [this] at hb
    simpa using hb
  have hsplit : l.batches.dropLast ++ [l.batches.getLast hne] = l.batches :=
    List.dropLast_append_getLast hne
  have hposlast : 0 < batchCount b := by
    have := hlastwf b hb
    exact this.1
  have hrep : l.batches.dropLast.map batchCount =
      List.replicate l.batches.dropLast.length l.batchSize := by
    apply List.eq_replicate_iff.mpr
    refine ⟨by simp, ?_⟩
    intro x hx
    obtain ⟨c, hc, hcx⟩ := List.mem_map.mp hx
    rw [← hcx]
    exact hfull c hc
  have hsum : l.datasetSize = l.batches.dropLast.length * l.batchSize +
      batchCount b := by
    rw [hN, ← hsplit, List.map_append, List.sum_append, hrep, hlastEq]
    simp [List.sum_replicate, Nat.smul_one_eq_cast]
  obtain ⟨m, hm⟩ : ∃ m, l.batches.length = m + 1 := by
    refine ⟨l.batches.length - 1, ?_⟩
    have : 0 < l.batches.length := List.length_pos.mpr hne
    omega
  have hdl : l.batches.dropLast.length = m := by
    rw [List.length_dropLast, hm]
    omega
  rw [lossDenom, accDenom, hsum, hdl, hm]
  have : (m + 1) * l.batchSize = m * l.batchSize + l.batchSize := by ring
  omega

/-- C2: after the evaluation batches are processed, the reported average
loss divides the accumulated loss by the dataset size
(`len(test_loader.dataset)`) while the reported accuracy divides the
correct count by `len(test_loader) * batch_size`; whenever the loader is
well-formed and its last batch is not full-sized, these two denominators
differ. -/
theorem c2_eval_denominators (crit : Criterion) (fwd : Forward)
    (net : Net) (loader : Loader) (hwf : loader.WellFormed)
    (hlast : ∃ b ∈ loader.batches.getLast?, batchCount b < loader.batchSize) :
    accDenom loader ≠ lossDenom loader ∧
      (test crit fwd net loader).2 = some
        { avgLoss := (testLoop crit fwd net.params loader.batches).2.1 /
            (lossDenom loader : ℚ)
          correct := (testLoop crit fwd net.params loader.batches).2.2
          accTotal := accDenom loader
          accuracyPct := 100 *
            ((testLoop crit fwd net.params loader.batches).2.2 : ℚ) /
              (accDenom loader : ℚ) } := by
  have hlt := lossDenom_lt_accDenom loader hwf hlast
  have hNpos : 0 < lossDenom loader := by
    obtain ⟨b, hb, _⟩ := hlast
    have hne : loader.batches ≠ [] := by
      intro h
      rw [h] at hb
      simp at hb
    have hpos := (hwf.2.2.2 b hb).1
    have hmem : b ∈ loader.batches := by
      have := List.getLast?_eq_getLast loader.batches hne
      rw [this] at hb
      simp only [Option.mem_def, Option.some.injEq] at hb
      rw [← hb]
      exact List.getLast_mem hne
    have : batchCount b ≤ (loader.batches.map batchCount).sum :=
      List.single_le_sum (by intro x hx; exact Nat.zero_le x) _
        (List.mem_map.mpr ⟨b, hmem, rfl⟩)
    have hN := hwf.2.1
    unfold lossDenom
    omega
  constructor
  · omega
  · unfold test
    rw [if_neg (by omega), if_neg (by omega)]

/-! ### Orchestrator claims -/

/-- The epoch loop records exactly one `trainPass` immediately followed
by one `testPass` for each epoch in its list, in order. -/
lemma epochLoop_events (crit : Criterion) (fwd : Forward)
    (optStep : OptStep) (trainLoader testLoader : Loader) :
    ∀ (es : List ℕ) (net : Net),
      (epochLoop crit fwd optStep trainLoader testLoader net es).2 =
        es.flatMap (fun e => [Event.trainPass e, Event.testPass e]) := by
  intro es
  induction es with
  | nil =>
    intro net
    simp [epochLoop]
  | cons e es ih =>
    intro net
    simp [epochLoop, ih]

/-- C7: the orchestrator first seeds the RNG, then loads the train/test
split, then for every epoch from 1 up to the configured epoch count runs
one training pass immediately followed by one evaluation pass, and only
then runs the persistence tail: the event trace of `task` is exactly the
interleaved per-epoch sequence. -/
theorem c7_orchestration_order (crit : Criterion) (fwd : Forward)
    (sgd : ℚ → ℚ → OptStep) (loadData : ℚ → ℕ → Loader × Loader)
    (mkNet : Net) (cfg : Config) :
    (task crit fwd sgd loadData mkNet cfg).2 =
      Event.manualSeed cfg.seed ::
        Event.loadData cfg.testSplit cfg.batchSize ::
          ((List.range' 1 cfg.epochs).flatMap
              (fun e => [Event.trainPass e, Event.testPass e]) ++
            saveEvents cfg) := by
  simp [task, epochLoop_events]

/-- C6: after the epochs, `task` writes the serialized model locally iff
the configured model name is non-empty (Python truthiness of
`args.model_name`), and attempts the remote upload iff additionally the
model directory is supplied as a non-empty string (Python truthiness of
`args.model_dir`); in particular an empty name suppresses both, and a
name without a directory writes the file but never uploads. -/
theorem c6_persistence (crit : Criterion) (fwd : Forward)
    (sgd : ℚ → ℚ → OptStep) (loadData : ℚ → ℕ → Loader × Loader)
    (mkNet : Net) (cfg : Config) :
    (Event.saveLocal cfg.modelName ∈ (task crit fwd sgd loadData mkNet cfg).2 ↔
        cfg.modelName ≠ "") ∧
      ∀ d : String,
        Event.uploadModel d cfg.modelName ∈
            (task crit fwd sgd loadData mkNet cfg).2 ↔
          cfg.modelName ≠ "" ∧ cfg.modelDir = some d ∧ d ≠ "" := by
  have hmem : ∀ ev : Event, ev ∈ (task crit fwd sgd loadData mkNet cfg).2 ↔
      (ev = Event.manualSeed cfg.seed ∨
        ev = Event.loadData cfg.testSplit cfg.batchSize ∨
        (∃ e ∈ List.range' 1 cfg.epochs,
          ev = Event.trainPass e ∨ ev = Event.testPass e) ∨
        ev ∈ saveEvents cfg) := by
    intro ev
    simp [task, epochLoop_events, List.mem_flatMap, or_assoc]
  constructor
  · rw [hmem]
    by_cases hname : cfg.modelName = ""
    · simp [saveEvents, hname]
    · simp [saveEvents, hname]
  · intro d
    rw [hmem]
    by_cases hname : cfg.modelName = ""
    · simp [saveEvents, hname]
    · cases hdir : cfg.modelDir with
      | none => simp [saveEvents, hname, hdir]
      | some dd =>
        by_cases hd : dd = ""
        · simp [saveEvents, hname, hdir, hd]
          intro h
          simp [h, hd]
        · simp [saveEvents, hname, hdir, hd]
          constructor
          · intro h
            subst h
            exact ⟨rfl, hd⟩
          · intro h
            exact h.1.symm

/-! ### Empty and non-empty evaluation sets -/

/-- C10: with an empty evaluation set (no batches or a dataset of zero
examples) the final normalization of the evaluation pass divides by zero
and the pass dies without reporting metrics; with a non-empty
well-formed evaluation set, both the loss denominator and the accuracy
denominator are strictly positive and the metrics are reported. -/
theorem c10_empty_eval_set (crit : Criterion) (fwd : Forward) (net : Net)
    (loader : Loader) (hwf : loader.WellFormed) :
    ((loader.batches = [] ∨ loader.datasetSize = 0) →
        (test crit fwd net loader).2 = none) ∧
      (loader.datasetSize ≠ 0 →
        0 < lossDenom loader ∧ 0 < accDenom loader ∧
          ((test crit fwd net loader).2).isSome = true) := by
  constructor
  · intro h
    have hzero : lossDenom loader = 0 := by
      rcases h with h | h
      · unfold lossDenom
        rw [hwf.2.1, h]
        simp
      · exact h
    unfold test
    rw [if_pos hzero]
  · intro h
    have hne : loader.batches ≠ [] := by
      intro hnil
      apply h
      rw [hwf.2.1, hnil]
      simp
    have hlpos : 0 < lossDenom loader := Nat.pos_of_ne_zero h
    have hapos : 0 < accDenom loader := by
      unfold accDenom
      exact Nat.mul_pos (List.length_pos.mpr hne) hwf.1
    refine ⟨hlpos, hapos, ?_⟩
    unfold test
    rw [if_neg (by omega), if_neg (by omega)]
    rfl

/-! ### Concrete witnesses -/

/-- A full-sized batch of two examples (batch size 2). -/
def batchFull : Batch := { features := [[0], [0]], target := [1, 0] }

/-- A final batch carrying a single example (not full-sized for batch
size 2). -/
def batchLast : Batch := { features := [[0]], target := [1] }

/-- A well-formed two-batch loader over 3 examples with batch size 2:
its last batch is not full-sized. -/
def loaderTwo : Loader :=
  { batches := [batchFull, batchLast], datasetSize := 3, batchSize := 2 }

/-- An empty loader (no batches, zero examples). -/
def loaderEmpty : Loader := { batches := [], datasetSize := 0, batchSize := 4 }

/-- Witness for C2 on `loaderTwo` (3 examples split 2 + 1): the accuracy
denominator evaluates to 4 and the loss denominator to 3. -/
theorem c2_witness :
    accDenom loaderTwo = 4 ∧ lossDenom loaderTwo = 3 ∧
      accDenom loaderTwo ≠ lossDenom loaderTwo :=
  ⟨rfl, rfl,
    (c2_eval_denominators critZero fwdConst netDemo loaderTwo (by decide)
        ⟨batchLast, rfl, by decide⟩).1⟩

/-- Witness for C10: the empty loader makes the evaluation pass die
before reporting, while the non-empty `loaderTwo` reports metrics with
strictly positive denominators. -/
theorem c10_witness :
    (test critZero fwdConst netDemo loaderEmpty).2 = none ∧
      (0 < lossDenom loaderTwo ∧ 0 < accDenom loaderTwo ∧
        ((test critZero fwdConst netDemo loaderTwo).2).isSome = true) :=
  ⟨(c10_empty_eval_set critZero fwdConst netDemo loaderEmpty (by decide)).1
      (Or.inl rfl),
    (c10_empty_eval_set critZero fwdConst netDemo loaderTwo (by decide)).2
      (by decide)⟩

/-- A seven-batch loader of one-example batches. -/
def loaderSeven : Loader :=
  { batches := List.replicate 7 batchLast, datasetSize := 7, batchSize := 1 }

/-- Concrete training trace on seven batches of unit loss: the running
loss climbs 1, 2, 3, 4, 5, a report of mean 6 / 6 = 1 fires on the batch
with zero-based index 5 (printed as batch 6) and resets the accumulator,
and the following batch starts accumulating afresh. -/
lemma train_trace_demo :
    (train critOne fwdConst stepId netDemo loaderSeven 3).2 =
      [{ index := 0, loss := 1, report := none, runningAfter := 1 },
       { index := 1, loss := 1, report := none, runningAfter := 2 },
       { index := 2, loss := 1, report := none, runningAfter := 3 },
       { index := 3, loss := 1, report := none, runningAfter := 4 },
       { index := 4, loss := 1, report := none, runningAfter := 5 },
       { index := 5, loss := 1,
         report := some { epoch := 3, batchNumber := 6, meanLoss := 1 },
         runningAfter := 0 },
       { index := 6, loss := 1, report := none, runningAfter := 1 }] := by
  norm_num [train, trainAux, critOne, loaderSeven, List.replicate]

/-- A constant optimizer factory (ignores learning rate and momentum). -/
def sgdConst : ℚ → ℚ → OptStep := fun _ _ => stepId

/-- A constant data provider returning the demo loader twice. -/
def loadDataConst : ℚ → ℕ → Loader × Loader := fun _ _ => (loaderDemo, loaderDemo)

/-- A demo configuration with both a model name and a model directory. -/
def cfgDemo : Config :=
  { modelDir := some "gs", modelName := "m", batchSize := 4, testSplit := 1/5,
    epochs := 2, lr := 1/100, momentum := 1/2, seed := 42 }

/-- Witness for C6 on `cfgDemo` (name and directory both configured):
the local write and the upload both appear in the event trace. -/
theorem c6_witness :
    Event.saveLocal "m" ∈
        (task critZero fwdConst sgdConst loadDataConst netDemo cfgDemo).2 ∧
      Event.uploadModel "gs" "m" ∈
        (task critZero fwdConst sgdConst loadDataConst netDemo cfgDemo).2 := by
  have h := c6_persistence critZero fwdConst sgdConst loadDataConst netDemo cfgDemo
  exact ⟨h.1.mpr (by decide), (h.2 "gs").mpr ⟨by decide, rfl, by decide⟩⟩

end SonarTask
